import Mathlib

/-!
Verification of the quota-constrained benefit-based recommendation selector
implemented in `src/production_recommendation_engine.py` (class
`ProductionRecommendationEngine`) against its natural-language specification.

The embedding models Python floats by exact rationals (`ℚ`); all claims under
study concern signs, comparisons and branch selection, which are robust under
this standard idealisation.  A client feature vector (a pandas Series read
only through `.get(key, 0)`) is modelled as an association list
`List (String × ℚ)` with a zero default.  The engine state
(`self.recommendation_history`) is an explicit `List String` threaded through
the functions.  In the deployed configuration the module-global
`production_engine` is the very instance on which the methods run, so the
reads of `production_engine.recommendation_history` inside
`_check_mandatory_rules` see the same list as `self.recommendation_history`;
the embedding therefore threads a single history list.
-/

attribute [local semireducible] Rat.ofScientific Rat.mul Rat.inv Rat.add Rat.sub

namespace ProdEngine

/-- Catalog of the 10 products, from `Config.PRODUCTS` in `src/config.py`. -/
def PRODUCTS : List String :=
  ["Карта для путешествий",
   "Премиальная карта",
   "Кредитная карта",
   "Обмен валют",
   "Кредит наличными",
   "Депозит мультивалютный",
   "Депозит сберегательный",
   "Депозит накопительный",
   "Инвестиции",
   "Золотые слитки"]

/-- Quota targets `self.product_quotas` from `ProductionRecommendationEngine.__init__`. -/
def product_quotas : List (String × ℚ) :=
  [("Кредитная карта", 0.20),
   ("Депозит сберегательный", 0.15),
   ("Премиальная карта", 0.12),
   ("Карта для путешествий", 0.10),
   ("Депозит накопительный", 0.10),
   ("Обмен валют", 0.08),
   ("Депозит мультивалютный", 0.08),
   ("Инвестиции", 0.06),
   ("Золотые слитки", 0.06),
   ("Кредит наличными", 0.05)]

/-- Dict read `self.product_quotas.get(p, d)`. -/
def quotaGet (p : String) (d : ℚ) : ℚ := (product_quotas.lookup p).getD d

/-- A client feature vector: named numeric fields, read with default 0. -/
abbrev FeatureVec := List (String × ℚ)

/-- Feature read `client_features.get(k, 0)`. -/
def featGet (cf : FeatureVec) (k : String) : ℚ := (cf.lookup k).getD 0

/-- The feature fields the engine reads, one per `client_features.get` key in
`calculate_all_benefits_tz_compliant`, `apply_production_rules_and_select`
and `_check_mandatory_rules`. -/
structure Feats where
  balance : ℚ
  taxi_spend : ℚ
  hotel_spend : ℚ
  restaurant_spend : ℚ
  food_spend : ℚ
  gas_spend : ℚ
  eat_home_spend : ℚ
  watch_home_spend : ℚ
  play_home_spend : ℚ
  cinema_spend : ℚ
  entert_spend : ℚ
  travel_cat_spend : ℚ
  jewelry_spend : ℚ
  cosmetics_spend : ℚ
  clothes_spend : ℚ
  fx_buy : ℚ
  fx_sell : ℚ
  transfer_out : ℚ
  transfer_in : ℚ
  loan_payments : ℚ
  installment_out : ℚ

/-- Extraction of the named fields from the feature vector, mirroring the
`client_features.get(...)` reads of the Python source. -/
def featsOf (cf : FeatureVec) : Feats where
  balance := featGet cf "avg_monthly_balance_KZT"
  taxi_spend := featGet cf "spend_Такси"
  hotel_spend := featGet cf "spend_Отели"
  restaurant_spend := featGet cf "spend_Кафе и рестораны"
  food_spend := featGet cf "spend_Продукты питания"
  gas_spend := featGet cf "spend_АЗС"
  eat_home_spend := featGet cf "spend_Едим дома"
  watch_home_spend := featGet cf "spend_Смотрим дома"
  play_home_spend := featGet cf "spend_Играем дома"
  cinema_spend := featGet cf "spend_Кино"
  entert_spend := featGet cf "spend_Развлечения"
  travel_cat_spend := featGet cf "spend_Путешествия"
  jewelry_spend := featGet cf "spend_Ювелирные украшения"
  cosmetics_spend := featGet cf "spend_Косметика и Парфюмерия"
  clothes_spend := featGet cf "spend_Одежда и обувь"
  fx_buy := featGet cf "transfer_fx_buy"
  fx_sell := featGet cf "transfer_fx_sell"
  transfer_out := featGet cf "transfer_transfer_out"
  transfer_in := featGet cf "transfer_transfer_in"
  loan_payments := featGet cf "transfer_loan_payment_out"
  installment_out := featGet cf "transfer_installment_payment_out"

/-- Local `online_spend` of `calculate_all_benefits_tz_compliant`. -/
def online_spend (x : Feats) : ℚ :=
  x.eat_home_spend + x.watch_home_spend + x.play_home_spend

/-- Local `entertainment_spend` (`spend_Кино + spend_Развлечения`). -/
def entertainment_spend (x : Feats) : ℚ := x.cinema_spend + x.entert_spend

/-- Local `total_fx = fx_buy + fx_sell`. -/
def total_fx (x : Feats) : ℚ := x.fx_buy + x.fx_sell

/-- Local `total_spending`: sum of the seven spend aggregates. -/
def total_spending (x : Feats) : ℚ :=
  x.taxi_spend + x.hotel_spend + x.restaurant_spend + x.food_spend +
    x.gas_spend + online_spend x + entertainment_spend x

/-- Local `spending_volatility = total_spending / max(balance, 1) if balance > 0 else 1.0`. -/
def spending_volatility (x : Feats) : ℚ :=
  if x.balance > 0 then total_spending x / max x.balance 1 else 1

/-- Product 1, `benefits['Карта для путешествий']`. -/
def travel_card_benefit (x : Feats) : ℚ :=
  let travel_spend := x.travel_cat_spend + x.hotel_spend
  if travel_spend > 0 ∨ x.taxi_spend > 0 then
    let monthly_travel := travel_spend / 3 / 100
    let monthly_taxi := x.taxi_spend / 3 / 100
    let travel_cashback_annual := (monthly_travel + monthly_taxi) * 0.04 * 12
    max travel_cashback_annual 600
  else 10

/-- Product 2, `benefits['Премиальная карта']`. -/
def premium_card_benefit (x : Feats) : ℚ :=
  let premium_categories := x.jewelry_spend + x.cosmetics_spend + x.restaurant_spend
  let tier_rate : ℚ :=
    if x.balance ≥ 6000000 then 0.04
    else if x.balance ≥ 1000000 then 0.03
    else 0.02
  let monthly_base_spend := total_spending x / 3 / 100
  let monthly_premium_categories := premium_categories / 3 / 100
  let tier_cashback := monthly_base_spend * tier_rate
  let premium_bonus := monthly_premium_categories * 0.04
  let total_cashback := tier_cashback + premium_bonus
  let limited_cashback := min total_cashback 100000
  let saved_fees := if x.balance > 500000 then min (x.balance * 0.001) 3000 else 0
  max (limited_cashback + saved_fees) 100

/-- Descending order on the second component, used to model Python
`sort(key=lambda x: x[1], reverse=True)` (a stable sort). -/
def descBySnd (a b : String × ℚ) : Prop := b.2 ≤ a.2

instance : DecidableRel descBySnd := fun a b => inferInstanceAs (Decidable (b.2 ≤ a.2))

instance : IsTotal (String × ℚ) descBySnd := ⟨fun a b => le_total b.2 a.2⟩

instance : IsTrans (String × ℚ) descBySnd := ⟨fun _ _ _ h1 h2 => le_trans h2 h1⟩

/-- Descending order on `ℚ` for `sorted(values, reverse=True)`. -/
def descQ (a b : ℚ) : Prop := b ≤ a

instance : DecidableRel descQ := fun a b => inferInstanceAs (Decidable (b ≤ a))

/-- Stable descending sort on the second component
(Python `sort(key=lambda x: x[1], reverse=True)`). -/
def sortDescBySnd (l : List (String × ℚ)) : List (String × ℚ) :=
  l.insertionSort descBySnd

/-- Product 3, `benefits['Кредитная карта']`. -/
def credit_card_benefit (x : Feats) : ℚ :=
  let all_spending : List ℚ :=
    [x.restaurant_spend, x.food_spend, x.gas_spend, x.taxi_spend,
     entertainment_spend x, x.cosmetics_spend, x.clothes_spend]
  let top_3_spending := ((all_spending.insertionSort descQ).take 3).sum
  let online_services := x.play_home_spend + x.eat_home_spend + x.cinema_spend
  let monthly_top3_spending := top_3_spending / 3 / 100
  let monthly_online_services := online_services / 3 / 100
  let credit_cashback_top3 := monthly_top3_spending * 0.10
  let credit_cashback_online := monthly_online_services * 0.10
  let credit_limit_benefit := min (x.balance * 0.1) 20000
  let installment_benefit :=
    if x.installment_out > 0 then min (monthly_top3_spending * 0.02) 2000 else 0
  max (credit_cashback_top3 + credit_cashback_online +
        credit_limit_benefit + installment_benefit) 200

/-- Product 4, `benefits['Обмен валют']`. -/
def fx_exchange_benefit (x : Feats) : ℚ :=
  if total_fx x > 1000 then
    let normalized_fx := total_fx x / 100
    let fx_spread_savings := normalized_fx * 0.005
    let auto_exchange_bonus := min (normalized_fx * 0.001) 500
    fx_spread_savings + auto_exchange_bonus
  else 50

/-- Product 5, `benefits['Кредит наличными']`. -/
def cash_loan_benefit (x : Feats) : ℚ :=
  let cash_deficit := max 0 (x.transfer_out - x.transfer_in)
  if cash_deficit > 50000 ∧ x.loan_payments > 10000 ∧ x.balance < 500000 then
    let potential_loan := min (cash_deficit * 2) 1000000
    let interest_12pct := potential_loan * 0.12
    let flexibility_value := min (potential_loan * 0.02) 5000
    let quick_access_value := 2000
    interest_12pct + flexibility_value + quick_access_value
  else 50

/-- Product 6, `benefits['Депозит мультивалютный']`. -/
def multicurrency_deposit_benefit (x : Feats) : ℚ :=
  if x.balance > 100000 ∧ (total_fx x > 1000 ∨ spending_volatility x > 0.1) then
    x.balance * 0.145 + min (total_fx x * 0.005) 2000 + min (x.balance * 0.005) 1000
  else x.balance * 0.145 * 0.5

/-- Product 7, `benefits['Депозит сберегательный']`. -/
def savings_deposit_benefit (x : Feats) : ℚ :=
  if x.balance > 50000 ∧ spending_volatility x < 0.3 then
    let savings_income := x.balance * 0.165
    let stability_bonus : ℚ := if x.transfer_in ≥ x.transfer_out then 2000 else 0
    let kdif_protection : ℚ := 1000
    savings_income + stability_bonus + kdif_protection
  else x.balance * 0.165 * 0.7

/-- Product 8, `benefits['Депозит накопительный']`. -/
def accumulation_deposit_benefit (x : Feats) : ℚ :=
  let cash_surplus := max 0 (x.transfer_in - x.transfer_out)
  if x.balance > 50000 ∧ cash_surplus > 5000 then
    x.balance * 0.155 + min (cash_surplus * 0.01) 2000
  else x.balance * 0.155 * 0.6

/-- Product 9, `benefits['Инвестиции']`. -/
def investments_benefit (x : Feats) : ℚ :=
  if x.balance ≥ 6 then
    let investment_amount := min (x.balance * 0.2) 500000
    let expected_return := investment_amount * 0.08
    let commission_savings := min (investment_amount * 0.02) 3000
    let low_entry_bonus : ℚ := if x.balance < 100000 then 500 else 0
    expected_return + commission_savings + low_entry_bonus
  else 100

/-- Product 10, `benefits['Золотые слитки']`. -/
def gold_bars_benefit (x : Feats) : ℚ :=
  if x.balance > 1000000 then
    let gold_allocation := min (x.balance * 0.15) 500000
    let gold_appreciation := gold_allocation * 0.04
    let diversification_value := min (x.balance * 0.005) 3000
    let storage_convenience : ℚ := if x.balance > 3000000 then 1000 else 500
    gold_appreciation + diversification_value + storage_convenience
  else
    let minimal_gold := min (x.balance * 0.1) 50000
    max (minimal_gold * 0.03) 200

/-- The benefit map built by `calculate_all_benefits_tz_compliant`, in its
insertion order (which coincides with the catalog order of
`Config.PRODUCTS`). -/
def calcBenefits (x : Feats) : List (String × ℚ) :=
  [("Карта для путешествий", travel_card_benefit x),
   ("Премиальная карта", premium_card_benefit x),
   ("Кредитная карта", credit_card_benefit x),
   ("Обмен валют", fx_exchange_benefit x),
   ("Кредит наличными", cash_loan_benefit x),
   ("Депозит мультивалютный", multicurrency_deposit_benefit x),
   ("Депозит сберегательный", savings_deposit_benefit x),
   ("Депозит накопительный", accumulation_deposit_benefit x),
   ("Инвестиции", investments_benefit x),
   ("Золотые слитки", gold_bars_benefit x)]

/-- Method `ProductionRecommendationEngine.calculate_all_benefits_tz_compliant`. -/
def calculate_all_benefits_tz_compliant (cf : FeatureVec) : List (String × ℚ) :=
  calcBenefits (featsOf cf)

/-- Dict read `benefits.get(p, 0)`. -/
def benefitsGet (bs : List (String × ℚ)) (p : String) : ℚ := (bs.lookup p).getD 0

/-- Method `ProductionRecommendationEngine._check_mandatory_rules`.  The history
argument models `production_engine.recommendation_history`, which in the
deployed configuration is `self.recommendation_history`. -/
def check_mandatory_rules (x : Feats) (benefits : List (String × ℚ))
    (hist : List String) : Option String :=
  let fx_total := x.fx_buy + x.fx_sell
  if fx_total > 50000 ∧ benefitsGet benefits "Обмен валют" > 1000 then
    some "Обмен валют"
  else
    let cash_deficit := x.transfer_out - x.transfer_in
    let loan_need_indicators : List Bool :=
      [decide (cash_deficit > 200000),
       decide (x.loan_payments > 50000),
       decide (x.balance < 100000),
       decide (x.transfer_out > x.transfer_in * 1.3)]
    if 2 ≤ (loan_need_indicators.filter id).length ∧
        (hist.length = 0 ∨
          (hist.count "Кредит наличными" : ℚ) / hist.length < 0.06 ∨
          (50 < hist.length ∧ hist.count "Кредит наличными" = 0)) then
      some "Кредит наличными"
    else if x.balance > 5000000 ∧ x.transfer_in > x.transfer_out * 1.5 ∧
        (hist.length = 0 ∨ (hist.count "Инвестиции" : ℚ) / hist.length < 0.06) then
      some "Инвестиции"
    else none

/-- Which return path of `apply_production_rules_and_select` produced the
decision. -/
inductive SelPath where
  | emptyBenefits
  | ultraGold
  | ultraInvest
  | mandatory
  | tieMonopoly
  | tieQuota
  | commit
  | fallback
deriving DecidableEq

/-- Result of one selection: the returned product, the updated
`recommendation_history`, and the return path taken. -/
structure SelResult where
  product : String
  hist : List String
  path : SelPath

/-- The `viable_products` computation: filter on benefit `> 100`, sort
descending, and fall back to the whole (sorted) map when the filter empties
the set. -/
def viableOf (benefits : List (String × ℚ)) : List (String × ℚ) :=
  let viable := benefits.filter (fun pb => decide (100 < pb.2))
  let viable := sortDescBySnd viable
  if viable = [] then sortDescBySnd benefits else viable

/-- List `missing_products` from the weighted-scoring loop. -/
def missing_products : List String :=
  ["Премиальная карта", "Карта для путешествий", "Кредит наличными",
   "Золотые слитки", "Инвестиции", "Депозит накопительный",
   "Депозит мультивалютный"]

/-- The weighted score assigned to one candidate inside the scoring loop of
`apply_production_rules_and_select`
(`0.90 * benefit_score - 0.15 * diversity_penalty + diversity_boost`). -/
def wScore (x : Feats) (hist : List String) (vs : List (String × ℚ))
    (pb : String × ℚ) : ℚ :=
  let max_benefit := if vs = [] then 1 else (vs.getD 0 ("", 0)).2
  let benefit_score := if max_benefit > 0 then pb.2 / max_benefit else 0
  let total_clients := hist.length
  let current_count := hist.count pb.1
  let diversity_penalty : ℚ :=
    if 20 ≤ total_clients then
      let current_share := (current_count : ℚ) / total_clients
      let quota := quotaGet pb.1 0.10
      if current_share > quota * 1.5 then ((current_share - quota) / quota) * 0.5
      else -0.05 * max 0 ((quota - current_share) / quota)
    else 0
  let diversity_boost : ℚ :=
    if pb.1 ∈ missing_products ∧ 10 ≤ total_clients then
      (if pb.1 ∉ hist then 0.08
       else if hist.count pb.1 ≤ 2 then 0.04
       else 0)
    else 0
  let travel_total := x.travel_cat_spend + x.hotel_spend + x.taxi_spend
  let diversity_boost :=
    diversity_boost +
      (if pb.1 = "Карта для путешествий" ∧ travel_total > 500000 then 0.05 else 0)
  0.90 * benefit_score - 0.15 * diversity_penalty + diversity_boost

/-- Python `max(weighted_scores, key=weighted_scores.get)`: the first
maximal entry in iteration (= insertion) order. -/
def pythonMaxBySnd (l : List (String × ℚ)) : String × ℚ :=
  match l with
  | [] => ("", 0)
  | h :: t => t.foldl (fun b y => if y.2 > b.2 then y else b) h

/-- The fallback ranking after the weighted-score block (lines 359-387 of the
source).  Python would divide by a zero `total_clients` here when the history
is empty; the embedding uses the `ℚ` convention `q / 0 = 0` (the code is
proved unreachable in claim C10). -/
def fallback_ranking (_x : Feats) (hist : List String)
    (vs : List (String × ℚ)) : SelResult :=
  let total_clients := hist.length
  let lastBenefit := (vs.getLastD ("", 0)).2
  match vs.find? (fun pb =>
      decide (lastBenefit * 0.8 ≤ pb.2) &&
      decide ((hist.count pb.1 : ℚ) / total_clients < quotaGet pb.1 0.20)) with
  | some pb => ⟨pb.1, hist ++ [pb.1], .fallback⟩
  | none =>
    let min_share :=
      ((vs.map (fun pb => (hist.count pb.1 : ℚ) / total_clients)).min?).getD 0
    match vs.find? (fun pb =>
        decide ((hist.count pb.1 : ℚ) / total_clients ≤ min_share + 0.05)) with
    | some pb => ⟨pb.1, hist ++ [pb.1], .fallback⟩
    | none => ⟨(vs.getD 0 ("", 0)).1, hist ++ [(vs.getD 0 ("", 0)).1], .fallback⟩

/-- The weighted-scoring block: build `weighted_scores` over the viable
candidates and commit the first maximal one; otherwise fall back. -/
def weighted_phase (x : Feats) (hist : List String)
    (vs : List (String × ℚ)) : SelResult :=
  let weighted_scores := vs.map (fun pb => (pb.1, wScore x hist vs pb))
  if weighted_scores ≠ [] then
    let best := pythonMaxBySnd weighted_scores
    ⟨best.1, hist ++ [best.1], .commit⟩
  else fallback_ranking x hist vs

/-- The scored part of the selection: viability filter, conservative
tie-breaker / anti-monopoly block, then weighted scoring. -/
def scored_select (x : Feats) (benefits : List (String × ℚ))
    (hist : List String) : SelResult :=
  let vs := viableOf benefits
  if 2 ≤ vs.length ∧ 20 ≤ hist.length then
    let p1b := vs.getD 0 ("", 0)
    let p2b := vs.getD 1 ("", 0)
    let total_clients_hist := hist.length
    let p1_share : ℚ :=
      if total_clients_hist ≠ 0 then (hist.count p1b.1 : ℚ) / total_clients_hist else 0
    let p2_share : ℚ :=
      if total_clients_hist ≠ 0 then (hist.count p2b.1 : ℚ) / total_clients_hist else 0
    let p1_quota := quotaGet p1b.1 0.10
    let p2_quota := quotaGet p2b.1 0.10
    if p1_share > 0.50 ∧ 0.97 * p1b.2 ≤ p2b.2 then
      ⟨p2b.1, hist ++ [p2b.1], .tieMonopoly⟩
    else if 0.97 * p1b.2 ≤ p2b.2 ∧ p1_share > p1_quota * 1.2 ∧ p2_share < p2_quota * 1.1 then
      ⟨p2b.1, hist ++ [p2b.1], .tieQuota⟩
    else weighted_phase x hist vs
  else weighted_phase x hist vs

/-- Method `ProductionRecommendationEngine.apply_production_rules_and_select`. -/
def apply_production_rules_and_select (benefits : List (String × ℚ))
    (x : Feats) (hist : List String) : SelResult :=
  if benefits = [] then ⟨"Депозит сберегательный", hist, .emptyBenefits⟩
  else if 20 ≤ hist.length ∧ "Золотые слитки" ∉ hist ∧
      x.balance > 3000000 ∧ benefitsGet benefits "Золотые слитки" > 50000 then
    ⟨"Золотые слитки", hist ++ ["Золотые слитки"], .ultraGold⟩
  else if 20 ≤ hist.length ∧ "Инвестиции" ∉ hist ∧
      x.balance > 2500000 ∧ benefitsGet benefits "Инвестиции" > 60000 then
    ⟨"Инвестиции", hist ++ ["Инвестиции"], .ultraInvest⟩
  else
    match check_mandatory_rules x benefits hist with
    | some p =>
      if benefitsGet benefits p > 1000 then ⟨p, hist ++ [p], .mandatory⟩
      else scored_select x benefits hist
    | none => scored_select x benefits hist

/-- One full decision: score the client with the Benefit Model, then select. -/
def engine_step (hist : List String) (cf : FeatureVec) : SelResult :=
  let benefits := calculate_all_benefits_tz_compliant cf
  apply_production_rules_and_select benefits (featsOf cf) hist

/-- Run a stream of clients through the engine, returning the decision
sequence and the final history. -/
def run_engine (hist : List String) : List FeatureVec → List String × List String
  | [] => ([], hist)
  | cf :: rest =>
    let r := engine_step hist cf
    let next := run_engine r.hist rest
    (r.product :: next.1, next.2)

/-! ## Helper lemmas -/

/-- The keys of the benefit map are exactly the catalog, in catalog order. -/
lemma calcBenefits_keys (x : Feats) : (calcBenefits x).map Prod.fst = PRODUCTS := rfl

/-- The benefit map is never empty. -/
lemma calcBenefits_ne_nil (x : Feats) : calcBenefits x ≠ [] := by
  intro h
  have := congrArg List.length h
  simp [calcBenefits] at this

/-- Looking up the gold product in the benefit map. -/
lemma benefitsGet_gold (x : Feats) :
    benefitsGet (calcBenefits x) "Золотые слитки" = gold_bars_benefit x := rfl

/-- Looking up the investments product in the benefit map. -/
lemma benefitsGet_invest (x : Feats) :
    benefitsGet (calcBenefits x) "Инвестиции" = investments_benefit x := rfl

/-- Uniform extraction of the zero client. -/
lemma featsOf_zero (cf : FeatureVec) (h : ∀ k, featGet cf k = 0) :
    featsOf cf = ⟨0, 0, 0, 0, 0, 0, 0, 0, 0, 0, 0, 0, 0, 0, 0, 0, 0, 0, 0, 0, 0⟩ := by
  unfold featsOf
  simp only [h]

/-! ## Claim C1 -/

/-- Claim C1 (counterexample): on the all-zero client the Benefit Model does
NOT return a strictly positive score for every product: the savings deposit
(and likewise the other two deposit products) scores exactly 0. -/
theorem C1_counterexample :
    benefitsGet (calculate_all_benefits_tz_compliant []) "Депозит сберегательный" = 0 ∧
    ¬ (∀ pb ∈ calculate_all_benefits_tz_compliant [], 0 < pb.2) := by
  constructor
  · decide
  · decide

/-- Claim C1 (amended): on a client whose every feature is zero, the Benefit
Model returns an entry for every one of the 10 catalog products with a
non-negative score; the score is strictly positive for all products except
the three deposit products (мультивалютный, сберегательный, накопительный),
which receive exactly 0. -/
theorem C1_theorem (cf : FeatureVec) (h : ∀ k, featGet cf k = 0) :
    ((calculate_all_benefits_tz_compliant cf).map Prod.fst = PRODUCTS) ∧
    (∀ pb ∈ calculate_all_benefits_tz_compliant cf, 0 ≤ pb.2) ∧
    benefitsGet (calculate_all_benefits_tz_compliant cf) "Депозит мультивалютный" = 0 ∧
    benefitsGet (calculate_all_benefits_tz_compliant cf) "Депозит сберегательный" = 0 ∧
    benefitsGet (calculate_all_benefits_tz_compliant cf) "Депозит накопительный" = 0 ∧
    (∀ pb ∈ calculate_all_benefits_tz_compliant cf,
      pb.1 ≠ "Депозит мультивалютный" → pb.1 ≠ "Депозит сберегательный" →
      pb.1 ≠ "Депозит накопительный" → 0 < pb.2) := by
  unfold calculate_all_benefits_tz_compliant
  rw [featsOf_zero cf h]
  decide

/-- Witness for C1: the empty feature vector has every feature equal to zero
and satisfies the amended conclusion. -/
theorem C1_witness :
    (∀ k, featGet ([] : FeatureVec) k = 0) ∧
    (((calculate_all_benefits_tz_compliant []).map Prod.fst = PRODUCTS) ∧
    (∀ pb ∈ calculate_all_benefits_tz_compliant [], 0 ≤ pb.2) ∧
    benefitsGet (calculate_all_benefits_tz_compliant []) "Депозит мультивалютный" = 0 ∧
    benefitsGet (calculate_all_benefits_tz_compliant []) "Депозит сберегательный" = 0 ∧
    benefitsGet (calculate_all_benefits_tz_compliant []) "Депозит накопительный" = 0 ∧
    (∀ pb ∈ calculate_all_benefits_tz_compliant [],
      pb.1 ≠ "Депозит мультивалютный" → pb.1 ≠ "Депозит сберегательный" →
      pb.1 ≠ "Депозит накопительный" → 0 < pb.2)) :=
  ⟨fun _ => rfl, C1_theorem [] (fun _ => rfl)⟩

/-! ## Claim C5 -/

/-- Claim C5 (counterexample): the Benefit Model can return a negative score:
a client with a negative average monthly balance gets a negative score for
the multicurrency deposit. -/
theorem C5_counterexample :
    benefitsGet (calculate_all_benefits_tz_compliant
      [("avg_monthly_balance_KZT", -1000000)]) "Депозит мультивалютный" < 0 ∧
    ¬ (∀ pb ∈ calculate_all_benefits_tz_compliant
      [("avg_monthly_balance_KZT", -1000000)], 0 ≤ pb.2) := by
  constructor
  · decide
  · decide

/-- The travel-card score is bounded below by its floor. -/
lemma travel_card_benefit_nonneg (x : Feats) : 0 ≤ travel_card_benefit x := by
  simp only [travel_card_benefit]
  split_ifs
  · exact le_trans (by norm_num) (le_max_right _ _)
  · norm_num

/-- The premium-card score is bounded below by its floor. -/
lemma premium_card_benefit_nonneg (x : Feats) : 0 ≤ premium_card_benefit x := by
  simp only [premium_card_benefit]
  exact le_trans (by norm_num) (le_max_right _ _)

/-- The credit-card score is bounded below by its floor. -/
lemma credit_card_benefit_nonneg (x : Feats) : 0 ≤ credit_card_benefit x := by
  simp only [credit_card_benefit]
  exact le_trans (by norm_num) (le_max_right _ _)

/-- The currency-exchange score is non-negative. -/
lemma fx_exchange_benefit_nonneg (x : Feats) : 0 ≤ fx_exchange_benefit x := by
  simp only [fx_exchange_benefit]
  split_ifs with h
  · have h0 : (0:ℚ) ≤ total_fx x := by linarith
    have h1 : (0:ℚ) ≤ total_fx x / 100 * 0.005 := by positivity
    have h2 : (0:ℚ) ≤ min (total_fx x / 100 * 0.001) 500 :=
      le_min (by positivity) (by norm_num)
    linarith
  · norm_num

/-- The cash-loan score is non-negative. -/
lemma cash_loan_benefit_nonneg (x : Feats) : 0 ≤ cash_loan_benefit x := by
  simp only [cash_loan_benefit]
  split_ifs with h
  · have hd : (0:ℚ) ≤ max 0 (x.transfer_out - x.transfer_in) := le_max_left _ _
    have hp : (0:ℚ) ≤ min (max 0 (x.transfer_out - x.transfer_in) * 2) 1000000 :=
      le_min (by linarith) (by norm_num)
    have hf : (0:ℚ) ≤ min (min (max 0 (x.transfer_out - x.transfer_in) * 2) 1000000 * 0.02) 5000 :=
      le_min (by linarith) (by norm_num)
    nlinarith
  · norm_num

/-- The multicurrency-deposit score is non-negative for non-negative
balance and FX volumes. -/
lemma multicurrency_deposit_benefit_nonneg (x : Feats)
    (hb : 0 ≤ x.balance) (hfx : 0 ≤ total_fx x) :
    0 ≤ multicurrency_deposit_benefit x := by
  simp only [multicurrency_deposit_benefit]
  split_ifs with h
  · have h1 : (0:ℚ) ≤ min (total_fx x * 0.005) 2000 := le_min (by positivity) (by norm_num)
    have h2 : (0:ℚ) ≤ min (x.balance * 0.005) 1000 := le_min (by positivity) (by norm_num)
    nlinarith
  · positivity

/-- The savings-deposit score is non-negative for non-negative balance. -/
lemma savings_deposit_benefit_nonneg (x : Feats) (hb : 0 ≤ x.balance) :
    0 ≤ savings_deposit_benefit x := by
  simp only [savings_deposit_benefit]
  split_ifs with h h2
  · nlinarith
  · nlinarith
  · positivity

/-- The accumulation-deposit score is non-negative for non-negative balance. -/
lemma accumulation_deposit_benefit_nonneg (x : Feats) (hb : 0 ≤ x.balance) :
    0 ≤ accumulation_deposit_benefit x := by
  simp only [accumulation_deposit_benefit]
  split_ifs with h
  · have hs : (0:ℚ) ≤ max 0 (x.transfer_in - x.transfer_out) := le_max_left _ _
    have h1 : (0:ℚ) ≤ min (max 0 (x.transfer_in - x.transfer_out) * 0.01) 2000 :=
      le_min (by nlinarith) (by norm_num)
    nlinarith
  · positivity

/-- The investments score is non-negative. -/
lemma investments_benefit_nonneg (x : Feats) : 0 ≤ investments_benefit x := by
  simp only [investments_benefit]
  split_ifs with h h2
  · have hb : (0:ℚ) ≤ x.balance := by linarith
    have ha : (0:ℚ) ≤ min (x.balance * 0.2) 500000 := le_min (by positivity) (by norm_num)
    have hc : (0:ℚ) ≤ min (min (x.balance * 0.2) 500000 * 0.02) 3000 :=
      le_min (by nlinarith) (by norm_num)
    nlinarith
  · have hb : (0:ℚ) ≤ x.balance := by linarith
    have ha : (0:ℚ) ≤ min (x.balance * 0.2) 500000 := le_min (by positivity) (by norm_num)
    have hc : (0:ℚ) ≤ min (min (x.balance * 0.2) 500000 * 0.02) 3000 :=
      le_min (by nlinarith) (by norm_num)
    nlinarith
  · norm_num

/-- The gold-bars score is non-negative for non-negative balance. -/
lemma gold_bars_benefit_nonneg (x : Feats) (hb : 0 ≤ x.balance) :
    0 ≤ gold_bars_benefit x := by
  simp only [gold_bars_benefit]
  split_ifs with h h2
  · have ha : (0:ℚ) ≤ min (x.balance * 0.15) 500000 := le_min (by positivity) (by norm_num)
    have hd : (0:ℚ) ≤ min (x.balance * 0.005) 3000 := le_min (by positivity) (by norm_num)
    nlinarith
  · have ha : (0:ℚ) ≤ min (x.balance * 0.15) 500000 := le_min (by positivity) (by norm_num)
    have hd : (0:ℚ) ≤ min (x.balance * 0.005) 3000 := le_min (by positivity) (by norm_num)
    nlinarith
  · exact le_trans (by norm_num) (le_max_right _ _)

/-- Claim C5 (amended): for every client feature vector whose fields are all
non-negative, the Benefit Model returns an entry for every one of the 10
catalog products and every returned score is non-negative.  (As stated over
arbitrary feature vectors the claim fails: see the counterexample with a
negative balance.) -/
theorem C5_theorem (cf : FeatureVec) (h : ∀ k, 0 ≤ featGet cf k) :
    ((calculate_all_benefits_tz_compliant cf).map Prod.fst = PRODUCTS) ∧
    ∀ pb ∈ calculate_all_benefits_tz_compliant cf, 0 ≤ pb.2 := by
  have hb : 0 ≤ (featsOf cf).balance := h "avg_monthly_balance_KZT"
  have hfx : 0 ≤ total_fx (featsOf cf) :=
    add_nonneg (h "transfer_fx_buy") (h "transfer_fx_sell")
  refine ⟨rfl, ?_⟩
  intro pb hpb
  unfold calculate_all_benefits_tz_compliant calcBenefits at hpb
  simp only [List.mem_cons, List.not_mem_nil, or_false] at hpb
  rcases hpb with rfl | rfl | rfl | rfl | rfl | rfl | rfl | rfl | rfl | rfl
  · exact travel_card_benefit_nonneg _
  · exact premium_card_benefit_nonneg _
  · exact credit_card_benefit_nonneg _
  · exact fx_exchange_benefit_nonneg _
  · exact cash_loan_benefit_nonneg _
  · exact multicurrency_deposit_benefit_nonneg _ hb hfx
  · exact savings_deposit_benefit_nonneg _ hb
  · exact accumulation_deposit_benefit_nonneg _ hb
  · exact investments_benefit_nonneg _
  · exact gold_bars_benefit_nonneg _ hb

/-- Witness for C5: the empty feature vector has all-non-negative fields and
satisfies the amended conclusion. -/
theorem C5_witness :
    (∀ k, 0 ≤ featGet ([] : FeatureVec) k) ∧
    (((calculate_all_benefits_tz_compliant []).map Prod.fst = PRODUCTS) ∧
    ∀ pb ∈ calculate_all_benefits_tz_compliant [], 0 ≤ pb.2) :=
  ⟨fun _ => le_refl 0, C5_theorem [] (fun _ => le_refl 0)⟩

/-! ## Claim C2 -/

/-- The gold-bars score never exceeds 24000 (so the ultra-rare gold branch of
the Selector can never fire on model-produced benefits). -/
lemma gold_bars_benefit_le (x : Feats) : gold_bars_benefit x ≤ 24000 := by
  simp only [gold_bars_benefit]
  split_ifs with h h2
  · linarith [min_le_right (x.balance * 0.15) 500000,
      min_le_right (x.balance * 0.005) 3000]
  · linarith [min_le_right (x.balance * 0.15) 500000,
      min_le_right (x.balance * 0.005) 3000]
  · apply max_le
    · linarith [min_le_right (x.balance * 0.1) 50000]
    · norm_num

/-- The investments score never exceeds 43500 (so the ultra-rare investments
branch of the Selector can never fire on model-produced benefits). -/
lemma investments_benefit_le (x : Feats) : investments_benefit x ≤ 43500 := by
  simp only [investments_benefit]
  split_ifs with h h2
  · linarith [min_le_right (x.balance * 0.2) 500000,
      min_le_right (min (x.balance * 0.2) 500000 * 0.02) 3000]
  · linarith [min_le_right (x.balance * 0.2) 500000,
      min_le_right (min (x.balance * 0.2) 500000 * 0.02) 3000]
  · norm_num

/-- When no ultra-rare branch fires and a mandatory product passes the 1000
gate, the Selector commits precisely that product. -/
lemma apply_select_mandatory (bs : List (String × ℚ)) (x : Feats)
    (hist : List String) (p : String) (hne : bs ≠ [])
    (hg : ¬(20 ≤ hist.length ∧ "Золотые слитки" ∉ hist ∧
      x.balance > 3000000 ∧ benefitsGet bs "Золотые слитки" > 50000))
    (hi : ¬(20 ≤ hist.length ∧ "Инвестиции" ∉ hist ∧
      x.balance > 2500000 ∧ benefitsGet bs "Инвестиции" > 60000))
    (hm : check_mandatory_rules x bs hist = some p)
    (hp : benefitsGet bs p > 1000) :
    apply_production_rules_and_select bs x hist = ⟨p, hist ++ [p], .mandatory⟩ := by
  unfold apply_production_rules_and_select
  rw [if_neg hne, if_neg hg, if_neg hi, hm]
  exact if_pos hp

/-- Claim C2: whenever a client's total currency-exchange volume exceeds
50000 and the model benefit of the exchange product exceeds the 1000 sanity
floor, the Selector returns the exchange product, for every quota state. -/
theorem C2_theorem (cf : FeatureVec) (hist : List String)
    (hfx : 50000 < featGet cf "transfer_fx_buy" + featGet cf "transfer_fx_sell")
    (hben : 1000 < benefitsGet (calculate_all_benefits_tz_compliant cf) "Обмен валют") :
    (apply_production_rules_and_select (calculate_all_benefits_tz_compliant cf)
      (featsOf cf) hist).product = "Обмен валют" := by
  have hgold : benefitsGet (calculate_all_benefits_tz_compliant cf) "Золотые слитки" ≤ 24000 :=
    gold_bars_benefit_le (featsOf cf)
  have hinv : benefitsGet (calculate_all_benefits_tz_compliant cf) "Инвестиции" ≤ 43500 :=
    investments_benefit_le (featsOf cf)
  have hne : calculate_all_benefits_tz_compliant cf ≠ [] := calcBenefits_ne_nil _
  have hmr : check_mandatory_rules (featsOf cf)
      (calculate_all_benefits_tz_compliant cf) hist = some "Обмен валют" := by
    unfold check_mandatory_rules
    exact if_pos ⟨hfx, hben⟩
  rw [apply_select_mandatory _ _ _ _ hne
    (fun hc => absurd hc.2.2.2 (by push_neg; linarith))
    (fun hc => absurd hc.2.2.2 (by push_neg; linarith))
    hmr hben]

/-- Witness for C2: a client with 20,000,000 of FX purchases satisfies both
hypotheses and is assigned the exchange product. -/
theorem C2_witness :
    (50000 < featGet [("transfer_fx_buy", 20000000)] "transfer_fx_buy" +
      featGet [("transfer_fx_buy", 20000000)] "transfer_fx_sell") ∧
    (1000 < benefitsGet (calculate_all_benefits_tz_compliant
      [("transfer_fx_buy", 20000000)]) "Обмен валют") ∧
    (apply_production_rules_and_select
      (calculate_all_benefits_tz_compliant [("transfer_fx_buy", 20000000)])
      (featsOf [("transfer_fx_buy", 20000000)]) []).product = "Обмен валют" :=
  ⟨by decide, by decide, C2_theorem [("transfer_fx_buy", 20000000)] [] (by decide) (by decide)⟩

/-! ## Claim C4 -/

/-- Every branch of the fallback ranking appends exactly the returned
product. -/
lemma fallback_ranking_hist (x : Feats) (hist : List String)
    (vs : List (String × ℚ)) :
    (fallback_ranking x hist vs).hist = hist ++ [(fallback_ranking x hist vs).product] := by
  simp only [fallback_ranking]
  split
  · rfl
  · split
    · rfl
    · rfl

/-- Every branch of the weighted phase appends exactly the returned
product. -/
lemma weighted_phase_hist (x : Feats) (hist : List String)
    (vs : List (String × ℚ)) :
    (weighted_phase x hist vs).hist = hist ++ [(weighted_phase x hist vs).product] := by
  simp only [weighted_phase]
  split_ifs
  · rfl
  · exact fallback_ranking_hist x hist vs

/-- Every branch of the scored selection appends exactly the returned
product. -/
lemma scored_select_hist (x : Feats) (benefits : List (String × ℚ))
    (hist : List String) :
    (scored_select x benefits hist).hist =
      hist ++ [(scored_select x benefits hist).product] := by
  simp only [scored_select]
  split_ifs <;> first
    | rfl
    | exact weighted_phase_hist x hist _

/-- Claim C4 (counterexample): a call with an empty benefits map returns a
product (the savings deposit) while leaving the history untouched, so not
every product-returning call appends an entry. -/
theorem C4_counterexample :
    (apply_production_rules_and_select [] (featsOf []) ["Обмен валют"]).product =
      "Депозит сберегательный" ∧
    (apply_production_rules_and_select [] (featsOf []) ["Обмен валют"]).hist =
      ["Обмен валют"] :=
  ⟨rfl, rfl⟩

/-- Claim C4 (amended): every call of the Selector with a NON-EMPTY benefits
map appends exactly one entry — the returned product — to the end of the
history, leaving all earlier entries intact; the empty-map fallback path
returns a product without recording it. -/
theorem C4_theorem (bs : List (String × ℚ)) (x : Feats) (hist : List String)
    (hne : bs ≠ []) :
    (apply_production_rules_and_select bs x hist).hist =
      hist ++ [(apply_production_rules_and_select bs x hist).product] := by
  unfold apply_production_rules_and_select
  rw [if_neg hne]
  split_ifs
  · rfl
  · rfl
  · cases hcm : check_mandatory_rules x bs hist with
    | none => exact scored_select_hist x bs hist
    | some p =>
      dsimp only
      split_ifs
      · rfl
      · exact scored_select_hist x bs hist

/-- Witness for C4: a singleton benefits map is non-empty and the call
appends exactly its decision. -/
theorem C4_witness :
    ([("Обмен валют", (2000:ℚ))] ≠ ([] : List (String × ℚ))) ∧
    (apply_production_rules_and_select [("Обмен валют", 2000)] (featsOf []) []).hist =
      [] ++ [(apply_production_rules_and_select [("Обмен валют", 2000)] (featsOf []) []).product] :=
  ⟨by decide, C4_theorem [("Обмен валют", 2000)] (featsOf []) [] (by decide)⟩

/-! ## Claim C6 -/

/-- The fallback ranking is always tagged as such. -/
lemma fallback_ranking_path (x : Feats) (hist : List String)
    (vs : List (String × ℚ)) :
    (fallback_ranking x hist vs).path = SelPath.fallback := by
  simp only [fallback_ranking]
  split
  · rfl
  · split
    · rfl
    · rfl

/-- The weighted phase never reports the mandatory path. -/
lemma weighted_phase_path_ne_mandatory (x : Feats) (hist : List String)
    (vs : List (String × ℚ)) :
    (weighted_phase x hist vs).path ≠ SelPath.mandatory := by
  simp only [weighted_phase]
  split_ifs
  · simp
  · rw [fallback_ranking_path]
    simp

/-- The scored selection never reports the mandatory path. -/
lemma scored_select_path_ne_mandatory (x : Feats) (bs : List (String × ℚ))
    (hist : List String) :
    (scored_select x bs hist).path ≠ SelPath.mandatory := by
  simp only [scored_select]
  split_ifs <;> first
    | exact weighted_phase_path_ne_mandatory x hist _
    | simp

/-- Inversion: a decision on the mandatory path comes from the
Mandatory-Rule Checker and passed the 1000 benefit gate. -/
lemma apply_select_mandatory_inv (bs : List (String × ℚ)) (x : Feats)
    (hist : List String)
    (hmand : (apply_production_rules_and_select bs x hist).path = SelPath.mandatory) :
    check_mandatory_rules x bs hist =
      some (apply_production_rules_and_select bs x hist).product ∧
    1000 < benefitsGet bs (apply_production_rules_and_select bs x hist).product := by
  unfold apply_production_rules_and_select at hmand ⊢
  split_ifs at hmand ⊢
  cases hcm : check_mandatory_rules x bs hist with
    | none =>
      rw [hcm] at hmand
      exact absurd hmand (scored_select_path_ne_mandatory x bs hist)
    | some q =>
      rw [hcm] at hmand
      dsimp only at hmand ⊢
      split_ifs at hmand ⊢ with hq
      · exact ⟨rfl, hq⟩
      · exact absurd hmand (scored_select_path_ne_mandatory x bs hist)

/-- If the checker forces the cash loan, the quota condition of its rule
held. -/
lemma check_cash_quota (x : Feats) (bs : List (String × ℚ)) (hist : List String)
    (h : check_mandatory_rules x bs hist = some "Кредит наличными") :
    hist.length = 0 ∨ (hist.count "Кредит наличными" : ℚ) / hist.length < 0.06 ∨
      (50 < hist.length ∧ hist.count "Кредит наличными" = 0) := by
  simp only [check_mandatory_rules] at h
  split_ifs at h with h1 h2 h3
  · exact absurd (Option.some.inj h) (by decide)
  · exact h2.2
  · exact absurd (Option.some.inj h) (by decide)

/-- If the checker forces investments, the quota condition of its rule
held. -/
lemma check_invest_quota (x : Feats) (bs : List (String × ℚ)) (hist : List String)
    (h : check_mandatory_rules x bs hist = some "Инвестиции") :
    hist.length = 0 ∨ (hist.count "Инвестиции" : ℚ) / hist.length < 0.06 := by
  simp only [check_mandatory_rules] at h
  split_ifs at h with h1 h2 h3
  · exact absurd (Option.some.inj h) (by decide)
  · exact absurd (Option.some.inj h) (by decide)
  · exact h3.2.2

/-- Claim C6 (counterexample): the currency-exchange mandatory rule runs no
quota check at all: with the tracker completely saturated by the exchange
product (share 100%, far above its 8% quota even with a 1.5 tolerance), the
checker still forces the exchange product and the Selector commits it. -/
theorem C6_counterexample :
    check_mandatory_rules (featsOf [("transfer_fx_buy", 20000000)])
      (calculate_all_benefits_tz_compliant [("transfer_fx_buy", 20000000)])
      (List.replicate 20 "Обмен валют") = some "Обмен валют" ∧
    (apply_production_rules_and_select
      (calculate_all_benefits_tz_compliant [("transfer_fx_buy", 20000000)])
      (featsOf [("transfer_fx_buy", 20000000)])
      (List.replicate 20 "Обмен валют")).path = SelPath.mandatory ∧
    (apply_production_rules_and_select
      (calculate_all_benefits_tz_compliant [("transfer_fx_buy", 20000000)])
      (featsOf [("transfer_fx_buy", 20000000)])
      (List.replicate 20 "Обмен валют")).product = "Обмен валют" ∧
    ((List.replicate 20 "Обмен валют").count "Обмен валют" : ℚ) /
      (List.replicate 20 "Обмен валют").length > quotaGet "Обмен валют" 0.10 * 1.5 := by
  refine ⟨by decide, by decide, by decide, by decide⟩

/-- Claim C6 (amended): whenever the Selector commits a decision on the
mandatory path, the forced product's benefit clears the 1000 sanity floor;
the quota tolerance check holds when the forced product is the cash loan or
investments — the currency-exchange rule carries no quota check. -/
theorem C6_theorem (bs : List (String × ℚ)) (x : Feats) (hist : List String)
    (hmand : (apply_production_rules_and_select bs x hist).path = SelPath.mandatory) :
    1000 < benefitsGet bs (apply_production_rules_and_select bs x hist).product ∧
    ((apply_production_rules_and_select bs x hist).product = "Кредит наличными" →
      (hist.length = 0 ∨ (hist.count "Кредит наличными" : ℚ) / hist.length < 0.06 ∨
        (50 < hist.length ∧ hist.count "Кредит наличными" = 0))) ∧
    ((apply_production_rules_and_select bs x hist).product = "Инвестиции" →
      (hist.length = 0 ∨ (hist.count "Инвестиции" : ℚ) / hist.length < 0.06)) := by
  obtain ⟨hcm, hgate⟩ := apply_select_mandatory_inv bs x hist hmand
  refine ⟨hgate, fun hq1 => ?_, fun hq2 => ?_⟩
  · rw [hq1] at hcm
    exact check_cash_quota x bs hist hcm
  · rw [hq2] at hcm
    exact check_invest_quota x bs hist hcm

/-- Witness for C6: a client with a 300,000 cash deficit, 20,000 of loan
payments and zero balance triggers the cash-loan rule on the mandatory
path; the amended conclusion holds there. -/
theorem C6_witness :
    ((apply_production_rules_and_select
      (calculate_all_benefits_tz_compliant
        [("transfer_transfer_out", 300000), ("transfer_loan_payment_out", 20000)])
      (featsOf [("transfer_transfer_out", 300000), ("transfer_loan_payment_out", 20000)])
      []).path = SelPath.mandatory) ∧
    (1000 < benefitsGet (calculate_all_benefits_tz_compliant
        [("transfer_transfer_out", 300000), ("transfer_loan_payment_out", 20000)])
      (apply_production_rules_and_select
        (calculate_all_benefits_tz_compliant
          [("transfer_transfer_out", 300000), ("transfer_loan_payment_out", 20000)])
        (featsOf [("transfer_transfer_out", 300000), ("transfer_loan_payment_out", 20000)])
        []).product ∧
    ((apply_production_rules_and_select
        (calculate_all_benefits_tz_compliant
          [("transfer_transfer_out", 300000), ("transfer_loan_payment_out", 20000)])
        (featsOf [("transfer_transfer_out", 300000), ("transfer_loan_payment_out", 20000)])
        []).product = "Кредит наличными" →
      (([] : List String).length = 0 ∨
        (([] : List String).count "Кредит наличными" : ℚ) / ([] : List String).length < 0.06 ∨
        (50 < ([] : List String).length ∧ ([] : List String).count "Кредит наличными" = 0))) ∧
    ((apply_production_rules_and_select
        (calculate_all_benefits_tz_compliant
          [("transfer_transfer_out", 300000), ("transfer_loan_payment_out", 20000)])
        (featsOf [("transfer_transfer_out", 300000), ("transfer_loan_payment_out", 20000)])
        []).product = "Инвестиции" →
      (([] : List String).length = 0 ∨
        (([] : List String).count "Инвестиции" : ℚ) / ([] : List String).length < 0.06))) :=
  ⟨by decide, C6_theorem _ _ _ (by decide)⟩

/-! ## Claim C9 -/

/-- Claim C9: the SCORING step drops candidates at or below the 100
viability floor; when that would empty the candidate set (a degenerate
benefit map), the full set is kept instead, for every non-empty benefit
map — and the resulting candidate list is never empty. -/
theorem C9_theorem (bs : List (String × ℚ)) (hne : bs ≠ []) :
    viableOf bs ≠ [] ∧
    ((∀ pb ∈ bs, pb.2 ≤ 100) → (viableOf bs).Perm bs) ∧
    ((∃ pb ∈ bs, 100 < pb.2) →
      (viableOf bs).Perm (bs.filter (fun pb => decide (100 < pb.2)))) := by
  simp only [viableOf]
  by_cases hF : sortDescBySnd (bs.filter (fun pb => decide (100 < pb.2))) = []
  · rw [if_pos hF]
    refine ⟨?_, fun _ => List.perm_insertionSort _ bs, fun hex => ?_⟩
    · intro h0
      apply hne
      have := congrArg List.length h0
      rw [sortDescBySnd, List.length_insertionSort] at this
      exact List.length_eq_zero.mp this
    · exfalso
      obtain ⟨pb, hmem, hgt⟩ := hex
      have hFnil : bs.filter (fun pb => decide (100 < pb.2)) = [] := by
        have := congrArg List.length hF
        rw [sortDescBySnd, List.length_insertionSort] at this
        exact List.length_eq_zero.mp this
      have : pb ∈ bs.filter (fun pb => decide (100 < pb.2)) :=
        List.mem_filter.mpr ⟨hmem, by simpa using hgt⟩
      rw [hFnil] at this
      exact List.not_mem_nil pb this
  · rw [if_neg hF]
    refine ⟨hF, fun hdeg => ?_, fun _ => List.perm_insertionSort _ _⟩
    exfalso
    apply hF
    have hFnil : bs.filter (fun pb => decide (100 < pb.2)) = [] := by
      rw [List.filter_eq_nil_iff]
      intro pb hmem
      simpa using not_lt.mpr (hdeg pb hmem)
    rw [hFnil]
    rfl

/-- Witness for C9: a degenerate singleton benefit map (score at the floor)
is kept whole. -/
theorem C9_witness :
    ([("Обмен валют", (50:ℚ))] ≠ ([] : List (String × ℚ))) ∧
    (viableOf [("Обмен валют", 50)] ≠ [] ∧
    ((∀ pb ∈ [("Обмен валют", (50:ℚ))], pb.2 ≤ 100) →
      (viableOf [("Обмен валют", 50)]).Perm [("Обмен валют", 50)]) ∧
    ((∃ pb ∈ [("Обмен валют", (50:ℚ))], 100 < pb.2) →
      (viableOf [("Обмен валют", 50)]).Perm
        ([("Обмен валют", (50:ℚ))].filter (fun pb => decide (100 < pb.2))))) :=
  ⟨by decide, C9_theorem [("Обмен валют", 50)] (by decide)⟩

/-! ## Claim C10 -/

/-- A non-empty benefit map yields a non-empty viable candidate list. -/
lemma viableOf_ne_nil (bs : List (String × ℚ)) (hne : bs ≠ []) :
    viableOf bs ≠ [] := by
  simp only [viableOf]
  by_cases hF : sortDescBySnd (bs.filter (fun pb => decide (100 < pb.2))) = []
  · rw [if_pos hF]
    intro h0
    apply hne
    have := congrArg List.length h0
    rw [sortDescBySnd, List.length_insertionSort] at this
    exact List.length_eq_zero.mp this
  · rw [if_neg hF]
    exact hF

/-- With a non-empty candidate list the weighted phase always commits. -/
lemma weighted_phase_path_ne_fallback (x : Feats) (hist : List String)
    (vs : List (String × ℚ)) (hvs : vs ≠ []) :
    (weighted_phase x hist vs).path ≠ SelPath.fallback := by
  simp only [weighted_phase]
  rw [if_pos (by simpa using hvs)]
  simp

/-- With a non-empty benefit map the scored selection never reaches the
fallback ranking. -/
lemma scored_select_path_ne_fallback (x : Feats) (bs : List (String × ℚ))
    (hist : List String) (hne : bs ≠ []) :
    (scored_select x bs hist).path ≠ SelPath.fallback := by
  have hvs := viableOf_ne_nil bs hne
  simp only [scored_select]
  split_ifs <;> first
    | exact weighted_phase_path_ne_fallback x hist _ hvs
    | simp

/-- Claim C10: for every non-empty benefits map the Selector returns through
a mandatory, tie-break or weighted-commit path; the fallback ranking after
the weighted-score return is unreachable. -/
theorem C10_theorem (bs : List (String × ℚ)) (x : Feats) (hist : List String)
    (hne : bs ≠ []) :
    (apply_production_rules_and_select bs x hist).path ≠ SelPath.fallback := by
  unfold apply_production_rules_and_select
  rw [if_neg hne]
  split_ifs
  · simp
  · simp
  · cases hcm : check_mandatory_rules x bs hist with
    | none => exact scored_select_path_ne_fallback x bs hist hne
    | some p =>
      dsimp only
      split_ifs
      · simp
      · exact scored_select_path_ne_fallback x bs hist hne

/-- Witness for C10: on a concrete non-empty map the fallback path is not
taken. -/
theorem C10_witness :
    ([("Обмен валют", (2000:ℚ))] ≠ ([] : List (String × ℚ))) ∧
    (apply_production_rules_and_select [("Обмен валют", 2000)] (featsOf [])
      []).path ≠ SelPath.fallback :=
  ⟨by decide, C10_theorem [("Обмен валют", 2000)] (featsOf []) [] (by decide)⟩

/-! ## Claim C3 -/

/-- Claim C3 (counterexample): a synthetic stream of 21 identical rich
clients (balance 10,000,000, nothing else), whose benefit map is dominated
by the savings deposit with a margin far beyond 3%, drives the savings
deposit to 20 of 21 decisions — a running share above 95%, violating the
claimed 50% + epsilon bound after ≥ 20 decisions. -/
theorem C3_counterexample :
    (run_engine [] (List.replicate 21 [("avg_monthly_balance_KZT", 10000000)])).2.length = 21 ∧
    ((run_engine [] (List.replicate 21
        [("avg_monthly_balance_KZT", 10000000)])).2.count "Депозит сберегательный" : ℚ) /
      (run_engine [] (List.replicate 21 [("avg_monthly_balance_KZT", 10000000)])).2.length
      > 0.50 + 0.40 := by
  constructor
  · set_option maxRecDepth 40000 in decide
  · set_option maxRecDepth 40000 in decide

/-- Claim C3 (amended): the anti-monopoly correction is only a per-decision
near-tie rule: once at least 20 decisions are committed, whenever no
mandatory branch fires, the leading viable candidate already holds more than
a 50% running share and the runner-up's benefit is at least 97% of the
leader's, the Selector picks the runner-up instead.  When the dominant
product's margin exceeds 3% no diversion happens and its share is unbounded
(see the counterexample). -/
theorem C3_theorem (bs : List (String × ℚ)) (x : Feats) (hist : List String)
    (p1 p2 : String) (b1 b2 : ℚ) (rest : List (String × ℚ))
    (hvs : viableOf bs = (p1, b1) :: (p2, b2) :: rest)
    (hlen : 20 ≤ hist.length)
    (hshare : 0.50 < (hist.count p1 : ℚ) / hist.length)
    (hnear : 0.97 * b1 ≤ b2)
    (hgold : benefitsGet bs "Золотые слитки" ≤ 50000)
    (hinv : benefitsGet bs "Инвестиции" ≤ 60000)
    (hcm : check_mandatory_rules x bs hist = none) :
    (apply_production_rules_and_select bs x hist).product = p2 ∧
    (apply_production_rules_and_select bs x hist).path = SelPath.tieMonopoly := by
  have hne : bs ≠ [] := by
    intro h
    subst h
    exact List.noConfusion hvs
  unfold apply_production_rules_and_select
  rw [if_neg hne,
    if_neg (fun hc => absurd hc.2.2.2 (not_lt.mpr hgold)),
    if_neg (fun hc => absurd hc.2.2.2 (not_lt.mpr hinv)),
    hcm]
  simp only [scored_select, hvs]
  rw [if_pos ⟨by simp, hlen⟩]
  have hlen0 : hist.length ≠ 0 := by omega
  rw [if_pos hlen0, if_pos hlen0]
  simp only [List.getD_cons_zero, List.getD_cons_succ]
  rw [if_pos ⟨hshare, hnear⟩]
  exact ⟨rfl, rfl⟩

/-- Witness for C3 (amended rule): with two near-tied viable products, a
history of 21 decisions all on the leader, and no mandatory rule firing, the
Selector diverts to the runner-up. -/
theorem C3_witness :
    (viableOf [("Кредитная карта", 1000), ("Премиальная карта", 990)] =
      [("Кредитная карта", (1000:ℚ)), ("Премиальная карта", 990)]) ∧
    (0.50 < ((List.replicate 21 "Кредитная карта").count "Кредитная карта" : ℚ) /
      (List.replicate 21 "Кредитная карта").length) ∧
    ((apply_production_rules_and_select
        [("Кредитная карта", 1000), ("Премиальная карта", 990)] (featsOf [])
        (List.replicate 21 "Кредитная карта")).product = "Премиальная карта" ∧
      (apply_production_rules_and_select
        [("Кредитная карта", 1000), ("Премиальная карта", 990)] (featsOf [])
        (List.replicate 21 "Кредитная карта")).path = SelPath.tieMonopoly) :=
  ⟨by decide, by decide,
    C3_theorem _ (featsOf []) _ "Кредитная карта" "Премиальная карта" 1000 990 []
      (by decide) (by decide) (by decide) (by decide) (by decide) (by decide) (by decide)⟩

/-! ## Claim C8 -/

/-- Claim C8: the decision process is a pure function of the input sequence
and the tracker state accumulated within the run — the embedding has no other
state, so replaying the same client sequence through a fresh Selector
reproduces the same decisions definitionally; this theorem states the
substantive half: the decisions for an initial segment are unaffected by later
clients, and the run threads the tracker sequentially (the decision for
client n observes exactly the committed state of clients 1..n-1). -/
theorem C8_theorem (hist : List String) (xs ys : List FeatureVec) :
    (run_engine hist (xs ++ ys)).1 =
      (run_engine hist xs).1 ++ (run_engine (run_engine hist xs).2 ys).1 ∧
    (run_engine hist (xs ++ ys)).2 = (run_engine (run_engine hist xs).2 ys).2 := by
  induction xs generalizing hist with
  | nil =>
    simp [run_engine]
  | cons c cs ih =>
    have h1 := (ih (engine_step hist c).hist).1
    have h2 := (ih (engine_step hist c).hist).2
    refine ⟨?_, ?_⟩
    · simp [run_engine, h1]
    · simp [run_engine, h2]

/-! ## Claim C7 -/

/-- Decomposition of the Python `max` fold: the result is either the initial
accumulator (and nothing beats it), or the first element strictly beating
everything before it, with nothing after it strictly beating it. -/
lemma foldl_pickMax_decomp :
    ∀ (l : List (String × ℚ)) (a : String × ℚ),
      (List.foldl (fun b y => if y.2 > b.2 then y else b) a l = a ∧ ∀ z ∈ l, z.2 ≤ a.2) ∨
      (∃ l1 r l2, l = l1 ++ r :: l2 ∧
        List.foldl (fun b y => if y.2 > b.2 then y else b) a l = r ∧
        a.2 < r.2 ∧ (∀ z ∈ l1, z.2 < r.2) ∧ (∀ z ∈ l2, z.2 ≤ r.2))
  | [], a => Or.inl ⟨rfl, by simp⟩
  | y :: t, a => by
    rw [List.foldl_cons]
    by_cases hy : y.2 > a.2
    · rw [if_pos hy]
      rcases foldl_pickMax_decomp t y with ⟨heq, hall⟩ | ⟨l1, r, l2, hdec, heq, hlt, h1, h2⟩
      · exact Or.inr ⟨[], y, t, by simp, heq, hy, by simp, hall⟩
      · refine Or.inr ⟨y :: l1, r, l2, by simp [hdec], heq, lt_trans hy hlt, ?_, h2⟩
        intro z hz
        rcases List.mem_cons.mp hz with rfl | hz
        · exact hlt
        · exact h1 z hz
    · rw [if_neg hy]
      rcases foldl_pickMax_decomp t a with ⟨heq, hall⟩ | ⟨l1, r, l2, hdec, heq, hlt, h1, h2⟩
      · refine Or.inl ⟨heq, ?_⟩
        intro z hz
        rcases List.mem_cons.mp hz with rfl | hz
        · exact le_of_not_lt hy
        · exact hall z hz
      · refine Or.inr ⟨y :: l1, r, l2, by simp [hdec], heq, hlt, ?_, h2⟩
        intro z hz
        rcases List.mem_cons.mp hz with rfl | hz
        · exact lt_of_le_of_lt (le_of_not_lt hy) hlt
        · exact h1 z hz

/-- The Python `max` over a non-empty association list returns its first
entry of maximal value: everything before it is strictly smaller, everything
after it is no larger. -/
lemma pythonMaxBySnd_decomp (l : List (String × ℚ)) (hne : l ≠ []) :
    ∃ l1 l2, l = l1 ++ pythonMaxBySnd l :: l2 ∧
      (∀ z ∈ l1, z.2 < (pythonMaxBySnd l).2) ∧
      (∀ z ∈ l2, z.2 ≤ (pythonMaxBySnd l).2) := by
  obtain ⟨h, t, rfl⟩ : ∃ h t, l = h :: t := by
    cases l with
    | nil => exact absurd rfl hne
    | cons h t => exact ⟨h, t, rfl⟩
  have hm : pythonMaxBySnd (h :: t) =
      List.foldl (fun b y => if y.2 > b.2 then y else b) h t := rfl
  rcases foldl_pickMax_decomp t h with ⟨heq, hall⟩ | ⟨l1, r, l2, hdec, heq, hlt, h1, h2⟩
  · rw [hm, heq]
    exact ⟨[], t, rfl, by simp, hall⟩
  · rw [hm, heq]
    refine ⟨h :: l1, l2, by rw [hdec]; rfl, ?_, h2⟩
    intro z hz
    rcases List.mem_cons.mp hz with rfl | hz
    · exact hlt
    · exact h1 z hz

/-- In a duplicate-free list two distinct elements appear in only one
relative order. -/
lemma pair_sublist_antisymm {α : Type} :
    ∀ (l : List α), l.Nodup → ∀ a b : α, [a, b].Sublist l → [b, a].Sublist l → a = b := by
  intro l
  induction l with
  | nil =>
    intro _ a b hab _
    exact absurd hab (by simp)
  | cons c t ih =>
    intro hnd a b hab hba
    rw [List.nodup_cons] at hnd
    cases hab with
    | cons _ hab' =>
      cases hba with
      | cons _ hba' => exact ih hnd.2 a b hab' hba'
      | cons₂ _ hba' =>
        exact absurd (hab'.subset (by simp)) hnd.1
    | cons₂ _ hab' =>
      cases hba with
      | cons _ hba' =>
        exact absurd (hba'.subset (by simp)) hnd.1
      | cons₂ _ hba' => rfl

/-- Two members of a list occur in some relative order. -/
lemma pair_sublist_of_mem {α : Type} :
    ∀ (l : List α) (a b : α), a ∈ l → b ∈ l → a ≠ b →
      [a, b].Sublist l ∨ [b, a].Sublist l := by
  intro l
  induction l with
  | nil =>
    intro a b ha
    exact absurd ha (by simp)
  | cons c t ih =>
    intro a b ha hb hne
    rcases List.mem_cons.mp ha with rfl | ha'
    · rcases List.mem_cons.mp hb with rfl | hb'
      · exact absurd rfl hne
      · exact Or.inl (List.Sublist.cons₂ a (List.singleton_sublist.mpr hb'))
    · rcases List.mem_cons.mp hb with rfl | hb'
      · exact Or.inr (List.Sublist.cons₂ b (List.singleton_sublist.mpr ha'))
      · rcases ih a b ha' hb' hne with h | h
        · exact Or.inl (h.cons c)
        · exact Or.inr (h.cons c)

/-- The viable candidate list is sorted descending by benefit. -/
lemma viableOf_sorted (bs : List (String × ℚ)) :
    (viableOf bs).Sorted descBySnd := by
  simp only [viableOf]
  split_ifs
  · exact List.sorted_insertionSort descBySnd bs
  · exact List.sorted_insertionSort descBySnd _

/-- The viable candidate list is the stable descending sort of a sublist of
the benefit map (the `> 100` filter, or the whole map on the degenerate
fallback). -/
lemma viableOf_eq_sort (bs : List (String × ℚ)) :
    ∃ B, B.Sublist bs ∧ viableOf bs = sortDescBySnd B := by
  simp only [viableOf]
  split_ifs
  · exact ⟨bs, List.Sublist.refl bs, rfl⟩
  · exact ⟨bs.filter (fun pb => decide (100 < pb.2)), List.filter_sublist bs, rfl⟩

/-- The benefit map has no duplicate entries. -/
lemma calcBenefits_nodup (x : Feats) : (calcBenefits x).Nodup := by
  apply List.Nodup.of_map Prod.fst
  rw [calcBenefits_keys]
  decide

/-- When the weighted phase reports the commit path, it committed the first
maximal entry of the weighted scores. -/
lemma weighted_phase_commit_inv (x : Feats) (hist : List String)
    (vs : List (String × ℚ))
    (hc : (weighted_phase x hist vs).path = SelPath.commit) :
    weighted_phase x hist vs =
      ⟨(pythonMaxBySnd (vs.map (fun pb => (pb.1, wScore x hist vs pb)))).1,
        hist ++ [(pythonMaxBySnd (vs.map (fun pb => (pb.1, wScore x hist vs pb)))).1],
        SelPath.commit⟩ := by
  simp only [weighted_phase] at hc ⊢
  split_ifs at hc ⊢
  · rfl
  · rw [fallback_ranking_path] at hc
    exact absurd hc (by simp)

/-- When the scored selection reports the commit path, it went through the
weighted phase (the tie-break branches carry their own tags). -/
lemma scored_select_commit_inv (x : Feats) (bs : List (String × ℚ))
    (hist : List String)
    (hc : (scored_select x bs hist).path = SelPath.commit) :
    scored_select x bs hist = weighted_phase x hist (viableOf bs) := by
  simp only [scored_select] at hc ⊢
  split_ifs at hc ⊢ <;> rfl

/-- Inversion: a decision on the commit path comes from the weighted phase
— no early return, ultra-rare, mandatory or tie-break branch was taken. -/
lemma apply_select_commit_inv (bs : List (String × ℚ)) (x : Feats)
    (hist : List String)
    (hc : (apply_production_rules_and_select bs x hist).path = SelPath.commit) :
    apply_production_rules_and_select bs x hist =
      weighted_phase x hist (viableOf bs) := by
  unfold apply_production_rules_and_select at hc ⊢
  split_ifs at hc ⊢
  cases hcm : check_mandatory_rules x bs hist with
    | none =>
      rw [hcm] at hc
      exact scored_select_commit_inv x bs hist hc
    | some q =>
      rw [hcm] at hc
      dsimp only at hc ⊢
      split_ifs at hc ⊢ with hq
      exact scored_select_commit_inv x bs hist hc

/-- Claim C7: whenever the Selector commits a decision on the COMMIT path
(the weighted-score maximization), it returns the viable candidate with the
highest weighted score; any candidate tied on weighted score has a strictly
smaller raw benefit, or an equal raw benefit and a position no earlier in
the benefit map — whose key order is the catalog order — so the choice is
deterministic. -/
theorem C7_theorem (cf : FeatureVec) (hist : List String)
    (bs vs : List (String × ℚ))
    (hbs : bs = calculate_all_benefits_tz_compliant cf)
    (hvseq : vs = viableOf bs)
    (hcommit : (apply_production_rules_and_select bs (featsOf cf) hist).path =
      SelPath.commit) :
    ∃ pb ∈ vs,
      (apply_production_rules_and_select bs (featsOf cf) hist).product = pb.1 ∧
      ∀ qb ∈ vs,
        wScore (featsOf cf) hist vs qb < wScore (featsOf cf) hist vs pb ∨
        (wScore (featsOf cf) hist vs qb = wScore (featsOf cf) hist vs pb ∧
          (qb.2 < pb.2 ∨ (qb.2 = pb.2 ∧ (qb = pb ∨ [pb, qb].Sublist bs)))) := by
  subst hvseq
  have hne : bs ≠ [] := by
    rw [hbs]
    exact calcBenefits_ne_nil _
  have hnodup : bs.Nodup := by
    rw [hbs]
    exact calcBenefits_nodup _
  set x := featsOf cf with hx
  have hvs_ne : viableOf bs ≠ [] := viableOf_ne_nil bs hne
  set vs := viableOf bs with hvs
  set g := fun pb : String × ℚ => (pb.1, wScore x hist vs pb) with hg
  have hws_ne : vs.map g ≠ [] := by simpa using hvs_ne
  have hsel : apply_production_rules_and_select bs x hist =
      ⟨(pythonMaxBySnd (vs.map g)).1, hist ++ [(pythonMaxBySnd (vs.map g)).1],
        SelPath.commit⟩ := by
    rw [apply_select_commit_inv bs x hist hcommit]
    simp only [weighted_phase]
    rw [if_pos hws_ne]
  obtain ⟨W1, W2, hWdec, hW1, hW2⟩ := pythonMaxBySnd_decomp (vs.map g) hws_ne
  obtain ⟨V1, u, hvdec, hmap1, hmap2⟩ := List.map_eq_append_iff.mp hWdec
  obtain ⟨v, V2, huc, hgv, hmap22⟩ := List.map_eq_cons_iff.mp hmap2
  subst huc
  have hv_mem : v ∈ vs := by
    rw [hvdec]
    exact List.mem_append_right V1 (List.mem_cons_self v V2)
  have hbest1 : (pythonMaxBySnd (vs.map g)).1 = v.1 := by rw [← hgv]
  have hbestw : (pythonMaxBySnd (vs.map g)).2 = wScore x hist vs v := by rw [← hgv]
  have hV1lt : ∀ z ∈ V1, wScore x hist vs z < wScore x hist vs v := by
    intro z hz
    have : g z ∈ W1 := by
      rw [← hmap1]
      exact List.mem_map_of_mem g hz
    have := hW1 (g z) this
    rwa [hbestw] at this
  have hV2le : ∀ z ∈ V2, wScore x hist vs z ≤ wScore x hist vs v := by
    intro z hz
    have : g z ∈ W2 := by
      rw [← hmap22]
      exact List.mem_map_of_mem g hz
    have := hW2 (g z) this
    rwa [hbestw] at this
  have hsorted : vs.Sorted descBySnd := viableOf_sorted bs
  have hcons_sorted : (v :: V2).Sorted descBySnd := by
    refine List.Pairwise.sublist ?_ hsorted
    rw [hvdec]
    exact List.sublist_append_right V1 (v :: V2)
  have hV2ben : ∀ q ∈ V2, q.2 ≤ v.2 :=
    fun q hq => List.rel_of_sorted_cons hcons_sorted q hq
  obtain ⟨B, hBsub, hBeq⟩ := viableOf_eq_sort bs
  have hBnodup : B.Nodup := hnodup.sublist hBsub
  have hvs_nodup : vs.Nodup := by
    rw [hvs, hBeq]
    exact ((List.perm_insertionSort descBySnd B).nodup_iff).mpr hBnodup
  refine ⟨v, hv_mem, by rw [hsel, hbest1], ?_⟩
  intro qb hqb
  have hqb_cases : qb ∈ V1 ∨ qb = v ∨ qb ∈ V2 := by
    rw [hvdec] at hqb
    rcases List.mem_append.mp hqb with h | h
    · exact Or.inl h
    · rcases List.mem_cons.mp h with h | h
      · exact Or.inr (Or.inl h)
      · exact Or.inr (Or.inr h)
  rcases hqb_cases with hq1 | rfl | hq2
  · exact Or.inl (hV1lt qb hq1)
  · exact Or.inr ⟨rfl, Or.inr ⟨rfl, Or.inl rfl⟩⟩
  · rcases lt_or_eq_of_le (hV2le qb hq2) with hlt | heqw
    · exact Or.inl hlt
    · refine Or.inr ⟨heqw, ?_⟩
      rcases lt_or_eq_of_le (hV2ben qb hq2) with hblt | hbeq
      · exact Or.inl hblt
      · refine Or.inr ⟨hbeq, ?_⟩
        by_cases hvq : qb = v
        · exact Or.inl hvq
        · refine Or.inr ?_
          have hq_vs : qb ∈ vs := by
            rw [hvdec]
            exact List.mem_append_right V1 (List.mem_cons_of_mem v hq2)
          have hq_sort : qb ∈ sortDescBySnd B := by
            rw [← hBeq]
            exact hq_vs
          have hv_sort : v ∈ sortDescBySnd B := by
            rw [← hBeq]
            exact hv_mem
          have hqB : qb ∈ B := (List.perm_insertionSort descBySnd B).subset hq_sort
          have hvB : v ∈ B := (List.perm_insertionSort descBySnd B).subset hv_sort
          have hvq_vs : List.Sublist [v, qb] vs := by
            have h1 : List.Sublist [v, qb] (v :: V2) :=
              List.Sublist.cons₂ v (List.singleton_sublist.mpr hq2)
            have h2 : List.Sublist (v :: V2) vs := by
              rw [hvdec]
              exact List.sublist_append_right V1 (v :: V2)
            exact h1.trans h2
          rcases pair_sublist_of_mem B v qb hvB hqB (fun h => hvq h.symm) with h | h
          · exact h.trans hBsub
          · exfalso
            have hqv_vs : List.Sublist [qb, v] vs := by
              rw [hvs, hBeq]
              exact List.pair_sublist_insertionSort (le_of_eq hbeq.symm) h
            exact hvq (pair_sublist_antisymm vs hvs_nodup qb v hqv_vs hvq_vs)

/-- Witness for C7: the all-zero client with an empty history commits on the
weighted path, so the commit-step characterization applies. -/
theorem C7_witness :
    ((apply_production_rules_and_select (calculate_all_benefits_tz_compliant [])
      (featsOf []) []).path = SelPath.commit) ∧
    (∃ pb ∈ viableOf (calculate_all_benefits_tz_compliant []),
      (apply_production_rules_and_select (calculate_all_benefits_tz_compliant [])
        (featsOf []) []).product = pb.1 ∧
      ∀ qb ∈ viableOf (calculate_all_benefits_tz_compliant []),
        wScore (featsOf []) [] (viableOf (calculate_all_benefits_tz_compliant [])) qb <
          wScore (featsOf []) [] (viableOf (calculate_all_benefits_tz_compliant [])) pb ∨
        (wScore (featsOf []) [] (viableOf (calculate_all_benefits_tz_compliant [])) qb =
          wScore (featsOf []) [] (viableOf (calculate_all_benefits_tz_compliant [])) pb ∧
          (qb.2 < pb.2 ∨ (qb.2 = pb.2 ∧
            (qb = pb ∨ [pb, qb].Sublist (calculate_all_benefits_tz_compliant [])))))) :=
  ⟨by decide,
    C7_theorem [] [] (calculate_all_benefits_tz_compliant [])
      (viableOf (calculate_all_benefits_tz_compliant [])) rfl rfl (by decide)⟩

end ProdEngine
